import Mathlib

/-!
Verification of the collaborative-canvas server core: a shallow embedding of
`src/server/drawing-state.js`, `src/server/rooms.js` and the socket handlers of
`src/server/server.js`, together with theorems settling the specification's
claims about the operation log, undo/redo cursor, active strokes, and room
registry lifecycle.

JavaScript `Map` objects are embedded as association lists with `mapGet`,
`mapSet`, `mapDelete` mirroring `Map.get` / `Map.set` / `Map.delete`
(set updates an existing key in place, otherwise appends; delete removes the
key).  Mutating methods become functions returning the new state; methods that
also return a value (`undo`, `redo`) return a pair.
-/

/-- A 2-D point, as sent by clients. -/
abbrev Point := Int × Int

/-- A stroke: free-path points, optional shape end position, and the client
timestamp (`stroke.timestamp` is read by the `strokeEnd` handler). -/
structure Stroke where
  points : List Point
  endPos : Option Point
  timestamp : Int
deriving Repr, DecidableEq

/-- A committed operation, as built in the `strokeEnd` handler of
`server.js`: `{ type: 'draw', stroke, userId, timestamp: stroke.timestamp }`. -/
structure Operation where
  type : String
  stroke : Stroke
  userId : String
  timestamp : Int
deriving Repr, DecidableEq

/-- User data, as built in the `joinRoom` handler of `server.js`:
`{ userId, socketId, userColor, joinedAt }`. -/
structure UserData where
  userId : String
  socketId : String
  userColor : String
  joinedAt : Int
deriving Repr, DecidableEq

/-- JS `Map.get`: the value at a key, searching in insertion order. -/
def mapGet {α : Type} : List (String × α) → String → Option α
  | [], _ => none
  | (k, v) :: rest, key => if k = key then some v else mapGet rest key

/-- JS `Map.set`: update the value of an existing key in place, otherwise append
the new entry at the end (JS `Map` insertion-order semantics). -/
def mapSet {α : Type} : List (String × α) → String → α → List (String × α)
  | [], key, v => [(key, v)]
  | (k, w) :: rest, key, v =>
    if k = key then (key, v) :: rest else (k, w) :: mapSet rest key v

/-- JS `Map.delete`: remove the entry with the given key. -/
def mapDelete {α : Type} (m : List (String × α)) (key : String) :
    List (String × α) :=
  m.filter (fun p => p.1 != key)

/-- JS `Map.has`. -/
def mapHas {α : Type} (m : List (String × α)) (key : String) : Bool :=
  (mapGet m key).isSome

/-- JavaScript `arr.slice(0, e)`: a negative end counts from the end of the
array, and `Int.toNat` clamps at zero exactly as JS clamps the range. -/
def jsSliceEnd {α : Type} (l : List α) (e : Int) : List α :=
  if e < 0 then l.take ((l.length : Int) + e).toNat else l.take e.toNat

/-- The room drawing state of `drawing-state.js`: operation history, undo/redo
cursor, user roster, per-user active strokes, and the history bound. -/
structure DrawingState where
  roomId : String
  operations : List Operation
  currentIndex : Int
  users : List (String × UserData)
  activeStrokes : List (String × Stroke)
  maxHistorySize : Nat
deriving Repr, DecidableEq

namespace DrawingState

/-- The `DrawingState` constructor: empty history, cursor `-1`, no users or
active strokes, `maxHistorySize = 1000`. -/
def init (roomId : String) : DrawingState :=
  { roomId := roomId
    operations := []
    currentIndex := -1
    users := []
    activeStrokes := []
    maxHistorySize := 1000 }

/-- Method `addUser(userData)`: `this.users.set(userData.userId, userData)`. -/
def addUser (s : DrawingState) (userData : UserData) : DrawingState :=
  { s with users := mapSet s.users userData.userId userData }

/-- Method `removeUser(userId)`: deletes the roster entry and the active stroke. -/
def removeUser (s : DrawingState) (userId : String) : DrawingState :=
  { s with users := mapDelete s.users userId
           activeStrokes := mapDelete s.activeStrokes userId }

/-- Method `hasUser(userId)`. -/
def hasUser (s : DrawingState) (userId : String) : Bool :=
  mapHas s.users userId

/-- Method `getUserCount()`: `this.users.size`. -/
def getUserCount (s : DrawingState) : Nat :=
  s.users.length

/-- Method `setActiveStroke(userId, stroke)`. -/
def setActiveStroke (s : DrawingState) (userId : String) (stroke : Stroke) :
    DrawingState :=
  { s with activeStrokes := mapSet s.activeStrokes userId stroke }

/-- Method `getActiveStroke(userId)`. -/
def getActiveStroke (s : DrawingState) (userId : String) : Option Stroke :=
  mapGet s.activeStrokes userId

/-- Method `clearActiveStroke(userId)`. -/
def clearActiveStroke (s : DrawingState) (userId : String) : DrawingState :=
  { s with activeStrokes := mapDelete s.activeStrokes userId }

/-- Method `addOperation(operation)`: truncate forward history when the cursor is not
at the end, push the operation, advance the cursor, then trim the front when
the history exceeds `maxHistorySize`, shifting the cursor by the trimmed
count. -/
def addOperation (s : DrawingState) (operation : Operation) : DrawingState :=
  let s1 :=
    if s.currentIndex < (s.operations.length : Int) - 1 then
      { s with operations := jsSliceEnd s.operations (s.currentIndex + 1) }
    else s
  let s2 := { s1 with operations := s1.operations ++ [operation]
                      currentIndex := s1.currentIndex + 1 }
  if s2.operations.length > s2.maxHistorySize then
    let removeCount := s2.operations.length - s2.maxHistorySize
    { s2 with operations := s2.operations.drop removeCount
              currentIndex := s2.currentIndex - (removeCount : Int) }
  else s2

/-- Method `undo()`: fails (state untouched) when `currentIndex < 0`, otherwise
decrements the cursor.  The `Bool` is the return value of the JS method. -/
def undo (s : DrawingState) : Bool × DrawingState :=
  if s.currentIndex < 0 then
    (false, s)
  else
    (true, { s with currentIndex := s.currentIndex - 1 })

/-- Method `redo()`: fails (state untouched) when
`currentIndex >= operations.length - 1`, otherwise increments the cursor. -/
def redo (s : DrawingState) : Bool × DrawingState :=
  if s.currentIndex ≥ (s.operations.length : Int) - 1 then
    (false, s)
  else
    (true, { s with currentIndex := s.currentIndex + 1 })

/-- Method `clear()`: empty history, cursor `-1`, all active strokes discarded. -/
def clear (s : DrawingState) : DrawingState :=
  { s with operations := []
           currentIndex := -1
           activeStrokes := [] }

/-- Method `getOperations()`: `this.operations.slice(0, this.currentIndex + 1)`,
the visible slice clients render. -/
def getOperations (s : DrawingState) : List Operation :=
  jsSliceEnd s.operations (s.currentIndex + 1)

/-- Method `getAllOperations()`: the full history including the undone tail. -/
def getAllOperations (s : DrawingState) : List Operation :=
  s.operations

/-- Method `canUndo()`. -/
def canUndo (s : DrawingState) : Bool :=
  s.currentIndex ≥ 0

/-- Method `canRedo()`. -/
def canRedo (s : DrawingState) : Bool :=
  s.currentIndex < (s.operations.length : Int) - 1

end DrawingState

/-! ### Association-list map lemmas -/

theorem mapGet_mapSet_self {α : Type} (m : List (String × α)) (key : String)
    (v : α) : mapGet (mapSet m key v) key = some v := by
  induction m with
  | nil => simp [mapSet, mapGet]
  | cons p rest ih =>
    obtain ⟨k, w⟩ := p
    rw [mapSet]
    split
    · simp [mapGet]
    · rw [mapGet]
      rename_i hk
      rw [if_neg hk]
      exact ih

theorem mapGet_mapSet_other {α : Type} (m : List (String × α)) (key k : String)
    (v : α) (hne : k ≠ key) : mapGet (mapSet m key v) k = mapGet m k := by
  induction m with
  | nil => simp [mapSet, mapGet, Ne.symm hne]
  | cons p rest ih =>
    obtain ⟨k0, w⟩ := p
    rw [mapSet]
    split
    · rename_i hk0
      subst hk0
      simp [mapGet, Ne.symm hne]
    · rw [mapGet, mapGet]
      split
      · rfl
      · exact ih

theorem mapGet_mapDelete_self {α : Type} (m : List (String × α))
    (key : String) : mapGet (mapDelete m key) key = none := by
  induction m with
  | nil => rfl
  | cons p rest ih =>
    rw [mapDelete, List.filter_cons]
    by_cases hk : p.1 = key
    · simp only [hk, bne_self_eq_false]
      exact ih
    · have hb : (p.1 != key) = true := by simpa using hk
      rw [if_pos hb, mapGet, if_neg hk]
      exact ih

theorem mapGet_mapDelete_other {α : Type} (m : List (String × α))
    (key k : String) (hne : k ≠ key) :
    mapGet (mapDelete m key) k = mapGet m k := by
  induction m with
  | nil => rfl
  | cons p rest ih =>
    rw [mapDelete, List.filter_cons]
    by_cases hk : p.1 = key
    · have hb : (p.1 != key) = false := by simp [hk]
      have hpk : ¬ (p.1 = k) := fun h => hne (by rw [← h, hk])
      rw [hb, if_neg Bool.false_ne_true, mapGet, if_neg hpk]
      exact ih
    · have hb : (p.1 != key) = true := by simpa using hk
      rw [if_pos hb, mapGet, mapGet]
      by_cases hpk : p.1 = k
      · rw [if_pos hpk, if_pos hpk]
      · rw [if_neg hpk, if_neg hpk]
        exact ih

theorem mapDelete_mapDelete_self {α : Type} (m : List (String × α))
    (key : String) : mapDelete (mapDelete m key) key = mapDelete m key := by
  induction m with
  | nil => rfl
  | cons p rest ih =>
    rw [mapDelete, mapDelete, List.filter_cons]
    split
    · rename_i h
      rw [List.filter_cons, if_pos h]
      rw [mapDelete] at ih
      rw [mapDelete] at ih
      exact congrArg (p :: .) ih
    · rw [mapDelete, mapDelete] at ih
      exact ih

/-! ### The cursor invariant and reachable states -/

/-- The cursor invariant of the operation log: `-1 <= cursor <= len-1`. -/
def CursorInv (s : DrawingState) : Prop :=
  -1 ≤ s.currentIndex ∧ s.currentIndex ≤ (s.operations.length : Int) - 1

instance (s : DrawingState) : Decidable (CursorInv s) := by
  unfold CursorInv
  infer_instance

/-- After `addOperation` the cursor sits exactly at the end of the history,
the history length is within `maxHistorySize`, and the other fields are
untouched. -/
theorem addOperation_post (s : DrawingState) (op : Operation)
    (h : CursorInv s) :
    (s.addOperation op).currentIndex =
      ((s.addOperation op).operations.length : Int) - 1 ∧
    (s.addOperation op).operations.length ≤ s.maxHistorySize ∧
    (s.addOperation op).maxHistorySize = s.maxHistorySize ∧
    (s.addOperation op).users = s.users ∧
    (s.addOperation op).activeStrokes = s.activeStrokes := by
  obtain ⟨h1, h2⟩ := h
  simp only [DrawingState.addOperation, jsSliceEnd]
  split <;> rename_i houter
  · rw [if_neg (by omega : ¬ s.currentIndex + 1 < 0)]
    split <;> rename_i hinner <;>
      refine ⟨?_, ?_, rfl, rfl, rfl⟩ <;>
      (try dsimp only at hinner ⊢) <;>
      (try simp only [List.length_drop, List.length_append, List.length_take,
        List.length_cons, List.length_nil] at hinner ⊢) <;>
      omega
  · split <;> rename_i hinner <;>
      refine ⟨?_, ?_, rfl, rfl, rfl⟩ <;>
      (try dsimp only at hinner ⊢) <;>
      (try simp only [List.length_drop, List.length_append, List.length_take,
        List.length_cons, List.length_nil] at hinner ⊢) <;>
      omega

/-- One mutation step on a room's drawing state: any of the `DrawingState`
methods the server can invoke. -/
inductive Step : DrawingState → DrawingState → Prop
  | addOperation (s : DrawingState) (op : Operation) : Step s (s.addOperation op)
  | undo (s : DrawingState) : Step s (s.undo).2
  | redo (s : DrawingState) : Step s (s.redo).2
  | clear (s : DrawingState) : Step s s.clear
  | addUser (s : DrawingState) (ud : UserData) : Step s (s.addUser ud)
  | removeUser (s : DrawingState) (uid : String) : Step s (s.removeUser uid)
  | setActiveStroke (s : DrawingState) (uid : String) (st : Stroke) :
      Step s (s.setActiveStroke uid st)
  | clearActiveStroke (s : DrawingState) (uid : String) :
      Step s (s.clearActiveStroke uid)

/-- A drawing state reachable from the constructor by any finite sequence of
mutations. -/
inductive Reachable : DrawingState → Prop
  | init (roomId : String) : Reachable (DrawingState.init roomId)
  | step {s t : DrawingState} : Reachable s → Step s t → Reachable t

/-- The full state invariant: cursor bound, history bound, and the fixed
`maxHistorySize` of the constructor. -/
def StateInv (s : DrawingState) : Prop :=
  CursorInv s ∧ s.operations.length ≤ s.maxHistorySize ∧ s.maxHistorySize = 1000

theorem step_inv {s t : DrawingState} (h : StateInv s) (hstep : Step s t) :
    StateInv t := by
  obtain ⟨⟨h1, h2⟩, h3, h4⟩ := h
  cases hstep with
  | addOperation op =>
    obtain ⟨p1, p2, p3, _, _⟩ := addOperation_post s op ⟨h1, h2⟩
    refine ⟨⟨?_, ?_⟩, ?_, ?_⟩ <;> omega
  | undo =>
    unfold DrawingState.undo
    split
    · exact ⟨⟨h1, h2⟩, h3, h4⟩
    · rename_i hc
      refine ⟨⟨?_, ?_⟩, h3, h4⟩
      · show -1 ≤ s.currentIndex - 1
        omega
      · show s.currentIndex - 1 ≤ (s.operations.length : Int) - 1
        omega
  | redo =>
    unfold DrawingState.redo
    split
    · exact ⟨⟨h1, h2⟩, h3, h4⟩
    · rename_i hc
      refine ⟨⟨?_, ?_⟩, h3, h4⟩
      · show -1 ≤ s.currentIndex + 1
        omega
      · show s.currentIndex + 1 ≤ (s.operations.length : Int) - 1
        omega
  | clear =>
    refine ⟨⟨?_, ?_⟩, ?_, h4⟩
    · show (-1 : Int) ≤ -1
      omega
    · show (-1 : Int) ≤ (([] : List Operation).length : Int) - 1
      simp
    · show ([] : List Operation).length ≤ s.maxHistorySize
      simp
  | addUser ud => exact ⟨⟨h1, h2⟩, h3, h4⟩
  | removeUser uid => exact ⟨⟨h1, h2⟩, h3, h4⟩
  | setActiveStroke uid st => exact ⟨⟨h1, h2⟩, h3, h4⟩
  | clearActiveStroke uid => exact ⟨⟨h1, h2⟩, h3, h4⟩

/-- Every reachable drawing state satisfies the invariant. -/
theorem reachable_inv {s : DrawingState} (h : Reachable s) : StateInv s := by
  induction h with
  | init roomId =>
    refine ⟨⟨by simp [DrawingState.init], by simp [DrawingState.init]⟩, ?_, rfl⟩
    simp [DrawingState.init]
  | step _ hstep ih => exact step_inv ih hstep

/-! ### Concrete witness data -/

/-- A concrete stroke used in witnesses. -/
def strokeW : Stroke := { points := [((0 : Int), (0 : Int))], endPos := none, timestamp := 1 }

/-- Concrete operations used in witnesses and scenario checks. -/
def opW : Operation := { type := "draw", stroke := strokeW, userId := "u1", timestamp := 1 }

def opA : Operation := { opW with timestamp := 10 }

def opB : Operation := { opW with timestamp := 20 }

def opC : Operation := { opW with timestamp := 30 }

def opD : Operation := { opW with timestamp := 40 }

/-- A concrete reachable state: one operation appended to a fresh room. -/
def stateW : DrawingState := (DrawingState.init "r1").addOperation opW

/-! ### Claim C1 -/

/-- Claim C1: every state reachable by a finite sequence of `addOperation`,
`undo`, `redo`, `clear` (and the user/stroke mutators) from the initial state
satisfies `-1 <= currentIndex <= operations.length - 1` and
`operations.length <= maxHistorySize`, with `maxHistorySize = 1000`. -/
theorem claim_C1_cursor_and_history_bounds (s : DrawingState)
    (h : Reachable s) :
    -1 ≤ s.currentIndex ∧
    s.currentIndex ≤ (s.operations.length : Int) - 1 ∧
    s.operations.length ≤ s.maxHistorySize ∧
    s.maxHistorySize = 1000 := by
  obtain ⟨⟨h1, h2⟩, h3, h4⟩ := reachable_inv h
  exact ⟨h1, h2, h3, h4⟩

/-- Witness for C1 at the concrete reachable state `stateW`. -/
theorem claim_C1_cursor_and_history_bounds_witness :
    Reachable stateW ∧
    (-1 ≤ stateW.currentIndex ∧
     stateW.currentIndex ≤ (stateW.operations.length : Int) - 1 ∧
     stateW.operations.length ≤ stateW.maxHistorySize ∧
     stateW.maxHistorySize = 1000) :=
  ⟨Reachable.step (Reachable.init "r1") (Step.addOperation _ opW),
   claim_C1_cursor_and_history_bounds stateW
     (Reachable.step (Reachable.init "r1") (Step.addOperation _ opW))⟩

/-! ### Claim C4 -/

/-- Claim C4: `undo` fails exactly when `currentIndex < 0` and `redo` fails
exactly when `currentIndex >= operations.length - 1`; a failing call leaves
the whole state (operations, cursor, users, active strokes) unchanged, and a
successful call moves the cursor by exactly one, leaving operations (and all
other fields) unchanged. -/
theorem claim_C4_undo_redo_boundary (s : DrawingState) :
    ((s.undo).1 = true ↔ 0 ≤ s.currentIndex) ∧
    ((s.redo).1 = true ↔ s.currentIndex < (s.operations.length : Int) - 1) ∧
    (s.undo).2 = (if 0 ≤ s.currentIndex
      then { s with currentIndex := s.currentIndex - 1 } else s) ∧
    (s.redo).2 = (if s.currentIndex < (s.operations.length : Int) - 1
      then { s with currentIndex := s.currentIndex + 1 } else s) := by
  refine ⟨?_, ?_, ?_, ?_⟩
  · unfold DrawingState.undo
    split <;> rename_i hc <;> simp <;> omega
  · unfold DrawingState.redo
    split <;> rename_i hc <;> simp <;> omega
  · unfold DrawingState.undo
    split <;> rename_i hc
    · rw [if_neg (by omega)]
    · rw [if_pos (by omega)]
  · unfold DrawingState.redo
    split <;> rename_i hc
    · rw [if_neg (by omega)]
    · rw [if_pos (by omega)]

/-! ### Claim C5 -/

/-- Claim C5: after `clear()` the history is empty, the cursor is `-1`, and
every active stroke of every author is discarded; no discarded stroke is
promoted (the resulting log is empty), and the users roster is untouched. -/
theorem claim_C5_clear_resets (s : DrawingState) :
    (s.clear).operations = [] ∧
    (s.clear).currentIndex = -1 ∧
    (s.clear).activeStrokes = [] ∧
    (s.clear).users = s.users ∧
    (s.clear).roomId = s.roomId ∧
    (s.clear).maxHistorySize = s.maxHistorySize :=
  ⟨rfl, rfl, rfl, rfl, rfl, rfl⟩

/-! ### Claim C3 -/

/-- Claim C3: for every reachable state, `getOperations()` equals the prefix
of `getAllOperations()` from index 0 through the cursor inclusive, and the
visible slice has exactly `currentIndex + 1` elements. -/
theorem claim_C3_visible_slice_law (s : DrawingState) (h : Reachable s) :
    s.getOperations = s.getAllOperations.take (s.currentIndex + 1).toNat ∧
    (s.getOperations.length : Int) = s.currentIndex + 1 := by
  obtain ⟨⟨h1, h2⟩, h3, h4⟩ := reachable_inv h
  unfold DrawingState.getOperations DrawingState.getAllOperations jsSliceEnd
  rw [if_neg (by omega : ¬ s.currentIndex + 1 < 0)]
  refine ⟨rfl, ?_⟩
  rw [List.length_take]
  omega

/-- Witness for C3 at the concrete reachable state `stateW`. -/
theorem claim_C3_visible_slice_law_witness :
    Reachable stateW ∧
    (stateW.getOperations =
       stateW.getAllOperations.take (stateW.currentIndex + 1).toNat ∧
     (stateW.getOperations.length : Int) = stateW.currentIndex + 1) :=
  ⟨Reachable.step (Reachable.init "r1") (Step.addOperation _ opW),
   claim_C3_visible_slice_law stateW
     (Reachable.step (Reachable.init "r1") (Step.addOperation _ opW))⟩

/-! ### Claim C10 -/

/-- Claim C10: on any reachable state with `currentIndex >= 0`, `undo()`
succeeds, the immediately following `redo()` succeeds, and the composite
restores the original state exactly (all fields, including operations, users
and active strokes). -/
theorem claim_C10_undo_redo_roundtrip (s : DrawingState) (h : Reachable s)
    (h0 : 0 ≤ s.currentIndex) :
    (s.undo).1 = true ∧ (((s.undo).2).redo).1 = true ∧
    (((s.undo).2).redo).2 = s := by
  obtain ⟨⟨h1, h2⟩, h3, h4⟩ := reachable_inv h
  have hu : s.undo = (true, { s with currentIndex := s.currentIndex - 1 }) := by
    unfold DrawingState.undo
    rw [if_neg (by omega : ¬ s.currentIndex < 0)]
  have hr : ({ s with currentIndex := s.currentIndex - 1 } : DrawingState).redo
      = (true, { s with currentIndex := s.currentIndex - 1 + 1 }) := by
    unfold DrawingState.redo
    rw [if_neg (show ¬ (s.currentIndex - 1 ≥ (s.operations.length : Int) - 1) by
      omega)]
  rw [hu]
  refine ⟨rfl, ?_, ?_⟩
  · show (({ s with currentIndex := s.currentIndex - 1 } : DrawingState).redo).1 = true
    rw [hr]
  · show (({ s with currentIndex := s.currentIndex - 1 } : DrawingState).redo).2 = s
    rw [hr]
    show ({ s with currentIndex := s.currentIndex - 1 + 1 } : DrawingState) = s
    have he : s.currentIndex - 1 + 1 = s.currentIndex := by omega
    rw [he]

/-- Witness for C10 at the concrete reachable state `stateW`. -/
theorem claim_C10_undo_redo_roundtrip_witness :
    Reachable stateW ∧ 0 ≤ stateW.currentIndex ∧
    ((stateW.undo).1 = true ∧ (((stateW.undo).2).redo).1 = true ∧
     (((stateW.undo).2).redo).2 = stateW) :=
  ⟨Reachable.step (Reachable.init "r1") (Step.addOperation _ opW),
   by decide,
   claim_C10_undo_redo_roundtrip stateW
     (Reachable.step (Reachable.init "r1") (Step.addOperation _ opW))
     (by decide)⟩

/-! ### Claim C2 -/

/-- The operation-log `append` written exactly as the specification words it:
truncate `operations` to `[0..cursor]` when `cursor < len-1`, push the
operation, set `cursor = len(operations) - 1` (absolutely, not by increment),
and when `len(operations) > maxHistory` drop the oldest
`excess = len(operations) - maxHistory` entries from the front and decrement
the cursor by `excess`.  Compared against the source's `addOperation`. -/
def appendSpec (s : DrawingState) (op : Operation) : DrawingState :=
  let t :=
    if s.currentIndex < (s.operations.length : Int) - 1 then
      { s with operations := s.operations.take (s.currentIndex + 1).toNat }
    else s
  let t2 := { t with operations := t.operations ++ [op]
                     currentIndex := ((t.operations ++ [op]).length : Int) - 1 }
  if t2.operations.length > t2.maxHistorySize then
    let excess := t2.operations.length - t2.maxHistorySize
    { t2 with operations := t2.operations.drop excess
              currentIndex := t2.currentIndex - (excess : Int) }
  else t2

/-- A fresh room with `maxHistorySize` lowered to 2, for the trim scenario. -/
def stTrim : DrawingState := { DrawingState.init "rA" with maxHistorySize := 2 }

/-- A room holding `[opA, opB, opC]` with the cursor at the end, for the
truncation scenario. -/
def stABC : DrawingState :=
  { DrawingState.init "rB" with operations := [opA, opB, opC], currentIndex := 2 }

/-- Claim C2: on every state satisfying the cursor invariant, `addOperation`
behaves exactly as the specification describes (`appendSpec`); moreover, with
`maxHistory = 2` appending A, B, C yields operations `[B, C]` with cursor 1,
and from `[A, B, C]` with cursor 2, `undo()` then `append(D)` yields
`[A, B, D]` with cursor 2 and the subsequent `redo()` fails. -/
theorem claim_C2_append_behaviour (s : DrawingState) (op : Operation)
    (h : CursorInv s) :
    s.addOperation op = appendSpec s op ∧
    (let t := ((stTrim.addOperation opA).addOperation opB).addOperation opC
     t.operations = [opB, opC] ∧ t.currentIndex = 1) ∧
    (let u := ((stABC.undo).2).addOperation opD
     u.operations = [opA, opB, opD] ∧ u.currentIndex = 2 ∧
     (u.redo).1 = false) := by
  obtain ⟨h1, h2⟩ := h
  refine ⟨?_, by decide, by decide⟩
  unfold DrawingState.addOperation appendSpec jsSliceEnd
  rw [if_neg (by omega : ¬ s.currentIndex + 1 < 0)]
  dsimp only
  split <;> rename_i hc <;>
    split <;> rename_i ht <;>
    simp only [DrawingState.mk.injEq, and_true, true_and, List.length_take,
      List.length_append, List.length_cons, List.length_nil] at * <;>
    (try omega)

/-- Witness for C2 at the concrete state `stABC` and operation `opD`. -/
theorem claim_C2_append_behaviour_witness :
    CursorInv stABC ∧
    (stABC.addOperation opD = appendSpec stABC opD ∧
     (let t := ((stTrim.addOperation opA).addOperation opB).addOperation opC
      t.operations = [opB, opC] ∧ t.currentIndex = 1) ∧
     (let u := ((stABC.undo).2).addOperation opD
      u.operations = [opA, opB, opD] ∧ u.currentIndex = 2 ∧
      (u.redo).1 = false)) :=
  ⟨by decide, claim_C2_append_behaviour stABC opD (by decide)⟩

/-! ### Room registry and socket handlers -/

/-- Externally visible registry actions, for stating ordering properties: a
persistence save of a room (`persistence.saveRoomState`) and removal of a
room from the registry (`this.rooms.delete`). -/
inductive RegistryEvent where
  | save (roomId : String)
  | deleteRoom (roomId : String)
deriving Repr, DecidableEq

/-- The room manager of `rooms.js`: the `roomId -> DrawingState` map.  The
persistence manager carries no state relevant here (every persistence call in
the source is commented out) and the auto-save timer is disabled. -/
structure RoomManager where
  rooms : List (String × DrawingState)
deriving Repr, DecidableEq

namespace RoomManager

/-- An empty registry, as built by the `RoomManager` constructor. -/
def empty : RoomManager := { rooms := [] }

/-- Method `getRoom(roomId)`: return the existing room, or create a fresh
`DrawingState` and store it (persistence loading is commented out in the
source, so a new room always starts empty). -/
def getRoom (rm : RoomManager) (roomId : String) :
    RoomManager × DrawingState :=
  match mapGet rm.rooms roomId with
  | some room => (rm, room)
  | none =>
    let room := DrawingState.init roomId
    ({ rm with rooms := mapSet rm.rooms roomId room }, room)

/-- Method `saveRoom(roomId)`: the entire body is commented out in the source
("persistence disabled - not saving to disk"), so it emits no save event and
leaves the registry unchanged. -/
def saveRoom (rm : RoomManager) (roomId : String) :
    RoomManager × List RegistryEvent :=
  (rm, [])

/-- Method `addUser(roomId, userData)`: `getRoom` then `room.addUser` (the JS method
mutates the room object held in the map; here the updated room is stored
back). -/
def addUser (rm : RoomManager) (roomId : String) (userData : UserData) :
    RoomManager :=
  let p := rm.getRoom roomId
  { p.1 with rooms := mapSet p.1.rooms roomId (p.2.addUser userData) }

/-- Method `removeUser(roomId, userId)`: no-op when the room does not exist;
otherwise remove the user from the room, and when the room becomes empty
delete it from the registry.  The `saveRoom(roomId)` call before the deletion
is commented out in the source, so no save event is ever emitted. -/
def removeUser (rm : RoomManager) (roomId userId : String) :
    RoomManager × List RegistryEvent :=
  match mapGet rm.rooms roomId with
  | none => (rm, [])
  | some room =>
    let room2 := room.removeUser userId
    let rm1 : RoomManager := { rm with rooms := mapSet rm.rooms roomId room2 }
    if room2.getUserCount = 0 then
      ({ rm1 with rooms := mapDelete rm1.rooms roomId },
       [RegistryEvent.deleteRoom roomId])
    else
      (rm1, [])

/-- Body of `removeUserFromAllRooms(userId)`: iterate in insertion order over
the registry entries (each iteration of the JS `forEach` touches only the
entry being visited, so iterating a snapshot of the entries is equivalent);
for each room containing the user, remove the user (possibly deleting the
room) and record the room id. -/
def removeUserFromAllRoomsAux (userId : String) :
    RoomManager → List (String × DrawingState) →
    RoomManager × List String × List RegistryEvent
  | rm, [] => (rm, [], [])
  | rm, (roomId, room) :: rest =>
    if room.hasUser userId then
      let p := rm.removeUser roomId userId
      let q := removeUserFromAllRoomsAux userId p.1 rest
      (q.1, roomId :: q.2.1, p.2 ++ q.2.2)
    else
      removeUserFromAllRoomsAux userId rm rest

/-- Method `removeUserFromAllRooms(userId)`. -/
def removeUserFromAllRooms (rm : RoomManager) (userId : String) :
    RoomManager × List String × List RegistryEvent :=
  removeUserFromAllRoomsAux userId rm rm.rooms

end RoomManager

namespace Server

/-- The `joinRoom` handler: adds the user to the room (creating the room via
`getRoom` inside `RoomManager.addUser`).  Notably it does not remove the
connection from any previously joined room (in `server.js`, `userId` is
`socket.id`, so `socketId = userId`). -/
def handleJoinRoom (rm : RoomManager) (userId userColor : String)
    (joinedAt : Int) (roomId : String) : RoomManager :=
  rm.addUser roomId
    { userId := userId, socketId := userId, userColor := userColor,
      joinedAt := joinedAt }

/-- The `strokeStart` handler: `roomManager.getRoom(roomId)` (which creates a
missing room), then `room.setActiveStroke(userId, stroke)`.  The
`if (!room) return` guard in the source can never fire because `getRoom`
always returns a room. -/
def handleStrokeStart (rm : RoomManager) (userId roomId : String)
    (stroke : Stroke) : RoomManager :=
  let p := rm.getRoom roomId
  { p.1 with rooms := mapSet p.1.rooms roomId (p.2.setActiveStroke userId stroke) }

/-- The `strokeDraw` handler: appends points to, or updates the end position
of, the user's active stroke; a no-op on the stroke when none is active — but
`getRoom` has already created a missing room by then. -/
def handleStrokeDraw (rm : RoomManager) (userId roomId : String)
    (points : Option (List Point)) (endPos : Option Point) : RoomManager :=
  let p := rm.getRoom roomId
  match p.2.getActiveStroke userId with
  | none => p.1
  | some as =>
    match points with
    | some ps =>
      let room2 := p.2.setActiveStroke userId { as with points := as.points ++ ps }
      { p.1 with rooms := mapSet p.1.rooms roomId room2 }
    | none =>
      match endPos with
      | some ep =>
        let room2 := p.2.setActiveStroke userId { as with endPos := some ep }
        { p.1 with rooms := mapSet p.1.rooms roomId room2 }
      | none => p.1

/-- The `strokeEnd` handler: wraps the payload stroke as a `draw` operation,
appends it to the room history, and clears the user's active stroke;
`getRoom` creates a missing room first. -/
def handleStrokeEnd (rm : RoomManager) (userId roomId : String)
    (stroke : Stroke) : RoomManager :=
  let p := rm.getRoom roomId
  let room2 := (p.2.addOperation
    { type := "draw", stroke := stroke, userId := userId,
      timestamp := stroke.timestamp }).clearActiveStroke userId
  { p.1 with rooms := mapSet p.1.rooms roomId room2 }

/-- The `undo` handler: `getRoom` (creating a missing room), `room.undo()`;
on failure only a notification is sent, the registry keeps the room. -/
def handleUndo (rm : RoomManager) (roomId : String) : RoomManager × Bool :=
  let p := rm.getRoom roomId
  let q := p.2.undo
  ({ p.1 with rooms := mapSet p.1.rooms roomId q.2 }, q.1)

/-- The `redo` handler, analogous to `handleUndo`. -/
def handleRedo (rm : RoomManager) (roomId : String) : RoomManager × Bool :=
  let p := rm.getRoom roomId
  let q := p.2.redo
  ({ p.1 with rooms := mapSet p.1.rooms roomId q.2 }, q.1)

/-- The `clear` handler: `getRoom` (creating a missing room), `room.clear()`. -/
def handleClear (rm : RoomManager) (roomId : String) : RoomManager :=
  let p := rm.getRoom roomId
  { p.1 with rooms := mapSet p.1.rooms roomId p.2.clear }

/-- The `disconnect` handler: `roomManager.removeUserFromAllRooms(userId)`,
followed by the notification loop over the returned room ids.  Each iteration
calls `roomManager.getRoom(roomId)`, which re-creates — fresh and empty — any
room that was just deleted because the disconnecting user was its last
member; the `if (room)` test is then always true and the emits carry no
registry effect, so the loop's state effect is exactly the fold of
`getRoom` over the room ids. -/
def handleDisconnect (rm : RoomManager) (userId : String) :
    RoomManager × List String × List RegistryEvent :=
  let q := rm.removeUserFromAllRooms userId
  let rm2 := q.2.1.foldl (fun acc roomId => (acc.getRoom roomId).1) q.1
  (rm2, q.2.1, q.2.2)

end Server

/-! ### Registry lemmas -/

/-- Lemma: `RoomManager.removeUser` touches no registry entry other than `roomId`. -/
theorem removeUser_lookup_other (rm : RoomManager) (roomId userId rid : String)
    (hne : rid ≠ roomId) :
    mapGet (rm.removeUser roomId userId).1.rooms rid = mapGet rm.rooms rid := by
  unfold RoomManager.removeUser
  split
  · rfl
  · dsimp only
    split
    · dsimp only
      rw [mapGet_mapDelete_other _ _ _ hne, mapGet_mapSet_other _ _ _ _ hne]
    · dsimp only
      rw [mapGet_mapSet_other _ _ _ _ hne]

/-- After `RoomManager.removeUser`, the target entry holds the shrunk room,
or is gone when the room became empty. -/
theorem removeUser_lookup_self (rm : RoomManager) (roomId userId : String)
    (room : DrawingState) (heq : mapGet rm.rooms roomId = some room) :
    mapGet (rm.removeUser roomId userId).1.rooms roomId =
      (if (room.removeUser userId).getUserCount = 0 then none
       else some (room.removeUser userId)) := by
  unfold RoomManager.removeUser
  rw [heq]
  dsimp only
  split
  · rw [mapGet_mapDelete_self]
  · rw [mapGet_mapSet_self]

/-- Lemma: `RoomManager.removeUser` on an absent room is a no-op. -/
theorem removeUser_none (rm : RoomManager) (roomId userId : String)
    (heq : mapGet rm.rooms roomId = none) :
    (rm.removeUser roomId userId).1 = rm := by
  unfold RoomManager.removeUser
  rw [heq]

/-- Removing the same user twice from a room is the same as removing once. -/
theorem DrawingState.removeUser_idem (s : DrawingState) (userId : String) :
    (s.removeUser userId).removeUser userId = s.removeUser userId := by
  unfold DrawingState.removeUser
  dsimp only
  rw [mapDelete_mapDelete_self, mapDelete_mapDelete_self]

/-- Simulation along the disconnect sweep: every room present after
`removeUserFromAllRoomsAux` was already present before, either untouched or
with exactly the one user removed. -/
theorem removeUserAux_lookup (userId : String)
    (l : List (String × DrawingState)) (rm : RoomManager) (rid : String)
    (r2 : DrawingState)
    (h : mapGet (RoomManager.removeUserFromAllRoomsAux userId rm l).1.rooms rid
       = some r2) :
    ∃ r1, mapGet rm.rooms rid = some r1 ∧
      (r2 = r1 ∨ r2 = r1.removeUser userId) := by
  induction l generalizing rm with
  | nil => exact ⟨r2, h, Or.inl rfl⟩
  | cons p rest ih =>
    obtain ⟨roomId, room⟩ := p
    rw [RoomManager.removeUserFromAllRoomsAux] at h
    split at h
    · dsimp only at h
      obtain ⟨r1', hr1', hd⟩ := ih _ h
      by_cases hrid : rid = roomId
      · subst hrid
        cases heq : mapGet rm.rooms rid with
        | none =>
          rw [removeUser_none rm rid userId heq, heq] at hr1'
          exact absurd hr1' (by simp)
        | some r0 =>
          rw [removeUser_lookup_self rm rid userId r0 heq] at hr1'
          split at hr1'
          · exact absurd hr1' (by simp)
          · have hr1e : r1' = r0.removeUser userId := by
              exact (Option.some.inj hr1').symm
            refine ⟨r0, rfl, Or.inr ?_⟩
            rcases hd with hd | hd
            · rw [hd, hr1e]
            · rw [hd, hr1e, DrawingState.removeUser_idem]
      · rw [removeUser_lookup_other rm roomId userId rid hrid] at hr1'
        exact ⟨r1', hr1', hd⟩
    · exact ih _ h

/-- Lemma: `getRoom` on a present room returns the registry unchanged. -/
theorem getRoom_some (rm : RoomManager) (roomId : String)
    (room : DrawingState) (heq : mapGet rm.rooms roomId = some room) :
    rm.getRoom roomId = (rm, room) := by
  unfold RoomManager.getRoom
  rw [heq]

/-- Lemma: `getRoom` on a missing room stores a fresh `DrawingState`. -/
theorem getRoom_none_fst (rm : RoomManager) (roomId : String)
    (heq : mapGet rm.rooms roomId = none) :
    (rm.getRoom roomId).1 =
      { rm with rooms := mapSet rm.rooms roomId (DrawingState.init roomId) } := by
  unfold RoomManager.getRoom
  rw [heq]

/-- Lemma: after folding `getRoom` over any list of room ids (the disconnect
handler's notification loop), every room in the registry is either a room
that was already there or a freshly created empty room. -/
theorem foldl_getRoom_lookup (ids : List String) (rm : RoomManager)
    (rid : String) (r2 : DrawingState)
    (h : mapGet (ids.foldl (fun acc roomId => (acc.getRoom roomId).1) rm).rooms
       rid = some r2) :
    mapGet rm.rooms rid = some r2 ∨ r2 = DrawingState.init rid := by
  induction ids generalizing rm with
  | nil => exact Or.inl h
  | cons roomId rest ih =>
    rw [List.foldl_cons] at h
    rcases ih _ h with hl | hr
    · cases heq : mapGet rm.rooms roomId with
      | some room =>
        rw [getRoom_some rm roomId room heq] at hl
        exact Or.inl hl
      | none =>
        rw [getRoom_none_fst rm roomId heq] at hl
        dsimp only at hl
        by_cases hid : rid = roomId
        · subst hid
          rw [mapGet_mapSet_self] at hl
          exact Or.inr (Option.some.inj hl).symm
        · rw [mapGet_mapSet_other _ _ _ _ hid] at hl
          exact Or.inl hl
    · exact Or.inr hr

/-! ### Concrete registries for counterexamples and witnesses -/

/-- A registry holding room `r1` with the single member `u1`. -/
def rmOne : RoomManager :=
  Server.handleJoinRoom RoomManager.empty "u1" "c1" 0 "r1"

/-- Registry `rmOne` after the same connection `u1` also joins room `r2`. -/
def rmTwoJoins : RoomManager :=
  Server.handleJoinRoom rmOne "u1" "c1" 1 "r2"

/-- Room `r1` with members `u1`, `u2`, and an active stroke for `u1`. -/
def rmTwoUsers : RoomManager :=
  Server.handleStrokeStart
    (Server.handleJoinRoom rmOne "u2" "c2" 1 "r1") "u1" "r1" strokeW

/-- The room stored in `rmOne`. -/
def roomW1 : DrawingState :=
  { roomId := "r1", operations := [], currentIndex := -1,
    users := [("u1", { userId := "u1", socketId := "u1",
                       userColor := "c1", joinedAt := 0 })],
    activeStrokes := [], maxHistorySize := 1000 }

/-- Whether the registry's room `roomId` exists and has `userId` as member. -/
def roomHasUser (rm : RoomManager) (roomId userId : String) : Bool :=
  match mapGet rm.rooms roomId with
  | some room => room.hasUser userId
  | none => false

/-! ### Claim C6 -/

/-- Counterexample to C6 as stated: removing the last member of room `r1`
from the concrete registry `rmOne` tears the room down with no
`PersistenceGateway.save` invocation at all — the emitted action trace is
exactly `[deleteRoom r1]` and contains no save event, yet the room is gone
from the registry. -/
theorem claim_C6_counterexample :
    (RoomManager.removeUser rmOne "r1" "u1").2 = [RegistryEvent.deleteRoom "r1"] ∧
    RegistryEvent.save "r1" ∉ (RoomManager.removeUser rmOne "r1" "u1").2 ∧
    mapGet (RoomManager.removeUser rmOne "r1" "u1").1.rooms "r1" = none := by
  decide

/-- Claim C6 (amended): whenever removing a member leaves a room's member set
empty, the registry deletes the Room State from the registry without invoking
`PersistenceGateway.save` — the `saveRoom` call before the deletion is
commented out in `rooms.js`, and `saveRoom` itself has its whole body
commented out. -/
theorem claim_C6_teardown_without_save (rm : RoomManager)
    (roomId userId : String) (room : DrawingState)
    (heq : mapGet rm.rooms roomId = some room)
    (hempty : (room.removeUser userId).getUserCount = 0) :
    (rm.removeUser roomId userId).2 = [RegistryEvent.deleteRoom roomId] ∧
    (∀ rid, RegistryEvent.save rid ∉ (rm.removeUser roomId userId).2) ∧
    mapGet (rm.removeUser roomId userId).1.rooms roomId = none := by
  have hev : (rm.removeUser roomId userId).2
      = [RegistryEvent.deleteRoom roomId] := by
    unfold RoomManager.removeUser
    rw [heq]
    dsimp only
    rw [if_pos hempty]
  refine ⟨hev, ?_, ?_⟩
  · intro rid
    rw [hev]
    simp
  · rw [removeUser_lookup_self rm roomId userId room heq, if_pos hempty]

/-- Witness for the amended C6 at the concrete registry `rmOne`. -/
theorem claim_C6_teardown_without_save_witness :
    mapGet rmOne.rooms "r1" = some roomW1 ∧
    (roomW1.removeUser "u1").getUserCount = 0 ∧
    ((RoomManager.removeUser rmOne "r1" "u1").2 = [RegistryEvent.deleteRoom "r1"] ∧
     (∀ rid, RegistryEvent.save rid ∉ (RoomManager.removeUser rmOne "r1" "u1").2) ∧
     mapGet (RoomManager.removeUser rmOne "r1" "u1").1.rooms "r1" = none) :=
  ⟨by decide, by decide,
   claim_C6_teardown_without_save rmOne "r1" "u1" roomW1 (by decide) (by decide)⟩

/-! ### Claim C7 -/

/-- Counterexample to C7 as stated: a `strokeEnd` for a room id with no Room
State in the (empty) registry is not a silently dropped no-op — it changes
the registry and creates a Room State for `r1` (with the operation appended,
because `getRoom` creates missing rooms and the `if (!room) return` guard can
never fire). -/
theorem claim_C7_counterexample :
    Server.handleStrokeEnd RoomManager.empty "u1" "r1" strokeW ≠ RoomManager.empty ∧
    (mapGet (Server.handleStrokeEnd RoomManager.empty "u1" "r1" strokeW).rooms
      "r1").isSome = true := by
  decide

/-- Claim C7 (amended): for every stroke/undo/redo/clear message referencing
a room id with no existing Room State, the handler creates a fresh Room State
via `getRoom` and processes the message against it; in particular `strokeEnd`
appends the operation to the freshly created room. -/
theorem claim_C7_missing_room_is_created (rm : RoomManager)
    (userId roomId : String) (stroke : Stroke) (points : Option (List Point))
    (endPos : Option Point) (h : mapGet rm.rooms roomId = none) :
    (mapGet (Server.handleStrokeStart rm userId roomId stroke).rooms
      roomId).isSome = true ∧
    (mapGet (Server.handleStrokeDraw rm userId roomId points endPos).rooms
      roomId).isSome = true ∧
    (mapGet (Server.handleUndo rm roomId).1.rooms roomId).isSome = true ∧
    (mapGet (Server.handleRedo rm roomId).1.rooms roomId).isSome = true ∧
    (mapGet (Server.handleClear rm roomId).rooms roomId).isSome = true ∧
    mapGet (Server.handleStrokeEnd rm userId roomId stroke).rooms roomId =
      some (((DrawingState.init roomId).addOperation
        { type := "draw", stroke := stroke, userId := userId,
          timestamp := stroke.timestamp }).clearActiveStroke userId) := by
  have hg : rm.getRoom roomId =
      ({ rm with rooms := mapSet rm.rooms roomId (DrawingState.init roomId) },
       DrawingState.init roomId) := by
    unfold RoomManager.getRoom
    rw [h]
  refine ⟨?_, ?_, ?_, ?_, ?_, ?_⟩
  · unfold Server.handleStrokeStart
    rw [hg]
    dsimp only
    rw [mapGet_mapSet_self]
    rfl
  · unfold Server.handleStrokeDraw
    rw [hg]
    dsimp only
    show (mapGet (mapSet rm.rooms roomId (DrawingState.init roomId))
      roomId).isSome = true
    rw [mapGet_mapSet_self]
    rfl
  · unfold Server.handleUndo
    rw [hg]
    dsimp only
    rw [mapGet_mapSet_self]
    rfl
  · unfold Server.handleRedo
    rw [hg]
    dsimp only
    rw [mapGet_mapSet_self]
    rfl
  · unfold Server.handleClear
    rw [hg]
    dsimp only
    rw [mapGet_mapSet_self]
    rfl
  · unfold Server.handleStrokeEnd
    rw [hg]
    dsimp only
    rw [mapGet_mapSet_self]

/-- Witness for the amended C7 at the empty registry. -/
theorem claim_C7_missing_room_is_created_witness :
    mapGet RoomManager.empty.rooms "r1" = none ∧
    ((mapGet (Server.handleStrokeStart RoomManager.empty "u1" "r1" strokeW).rooms
       "r1").isSome = true ∧
     (mapGet (Server.handleStrokeDraw RoomManager.empty "u1" "r1" none none).rooms
       "r1").isSome = true ∧
     (mapGet (Server.handleUndo RoomManager.empty "r1").1.rooms "r1").isSome = true ∧
     (mapGet (Server.handleRedo RoomManager.empty "r1").1.rooms "r1").isSome = true ∧
     (mapGet (Server.handleClear RoomManager.empty "r1").rooms "r1").isSome = true ∧
     mapGet (Server.handleStrokeEnd RoomManager.empty "u1" "r1" strokeW).rooms "r1" =
       some (((DrawingState.init "r1").addOperation
         { type := "draw", stroke := strokeW, userId := "u1",
           timestamp := strokeW.timestamp }).clearActiveStroke "u1")) :=
  ⟨by decide,
   claim_C7_missing_room_is_created RoomManager.empty "u1" "r1" strokeW
     none none (by decide)⟩

/-! ### Claim C8 -/

/-- Counterexample to C8 as stated: after the same connection `u1` joins room
`r1` and then room `r2` (registry `rmTwoJoins`), its user id is a member of
two distinct rooms at once — the `joinRoom` handler never removes membership
in the room joined previously. -/
theorem claim_C8_counterexample :
    ("r1" : String) ≠ "r2" ∧
    roomHasUser rmTwoJoins "r1" "u1" = true ∧
    roomHasUser rmTwoJoins "r2" "u1" = true := by
  decide

/-- Claim C8 (amended): handling a join leaves every other room — including
any room the connection previously joined, and its membership there —
completely unchanged; consequently a connection can be a member of several
rooms at once, as the concrete registry `rmTwoJoins` shows. -/
theorem claim_C8_join_keeps_prior_membership (rm : RoomManager)
    (userId userColor : String) (joinedAt : Int) (ra rb : String)
    (hne : ra ≠ rb) :
    mapGet (Server.handleJoinRoom rm userId userColor joinedAt rb).rooms ra =
      mapGet rm.rooms ra ∧
    roomHasUser rmTwoJoins "r1" "u1" = true ∧
    roomHasUser rmTwoJoins "r2" "u1" = true := by
  refine ⟨?_, by decide, by decide⟩
  unfold Server.handleJoinRoom RoomManager.addUser RoomManager.getRoom
  split <;> dsimp only <;>
    rw [mapGet_mapSet_other _ _ _ _ hne] <;>
    (try rw [mapGet_mapSet_other _ _ _ _ hne])

/-- Witness for the amended C8: joining `r2` from `rmOne` leaves room `r1`
(and `u1`'s membership in it) unchanged. -/
theorem claim_C8_join_keeps_prior_membership_witness :
    ("r1" : String) ≠ "r2" ∧
    (mapGet (Server.handleJoinRoom rmOne "u1" "c1" 1 "r2").rooms "r1" =
       mapGet rmOne.rooms "r1" ∧
     roomHasUser rmTwoJoins "r1" "u1" = true ∧
     roomHasUser rmTwoJoins "r2" "u1" = true) :=
  ⟨by decide,
   claim_C8_join_keeps_prior_membership rmOne "u1" "c1" 1 "r1" "r2" (by decide)⟩

/-! ### Claim C9 -/

/-- Claim C9: the disconnect path never commits an active stroke.  No
`addOperation` happens anywhere along the path: every room present after
`handleDisconnect` either keeps exactly the operation log and cursor of a
room that existed before, or is a freshly re-created empty room (the
notification loop's `getRoom` call re-creates a room that was just deleted
because the disconnecting user was its last member — its log is empty, so it
holds no operation either).  Per room, the removal deletes the author's
active-stroke entry and membership while leaving the log untouched. -/
theorem claim_C9_disconnect_never_commits (rm : RoomManager) (userId : String) :
    (∀ rid r2,
       mapGet (Server.handleDisconnect rm userId).1.rooms rid = some r2 →
       (∃ r1, mapGet rm.rooms rid = some r1 ∧
          r2.operations = r1.operations ∧ r2.currentIndex = r1.currentIndex) ∨
       r2 = DrawingState.init rid) ∧
    (∀ room : DrawingState,
       (room.removeUser userId).operations = room.operations ∧
       (room.removeUser userId).currentIndex = room.currentIndex ∧
       (room.removeUser userId).getActiveStroke userId = none ∧
       (room.removeUser userId).hasUser userId = false) := by
  constructor
  · intro rid r2 h
    unfold Server.handleDisconnect at h
    dsimp only at h
    rcases foldl_getRoom_lookup _ _ _ _ h with hl | hr
    · obtain ⟨r1, hr1, hd⟩ := removeUserAux_lookup userId rm.rooms rm rid r2 hl
      refine Or.inl ⟨r1, hr1, ?_, ?_⟩ <;> rcases hd with rfl | rfl <;> rfl
    · exact Or.inr hr
  · intro room
    refine ⟨rfl, rfl, ?_, ?_⟩
    · exact mapGet_mapDelete_self _ _
    · show (mapGet (mapDelete room.users userId) userId).isSome = false
      rw [mapGet_mapDelete_self]
      rfl

/-- The room left in `rmTwoUsers` after `u1` (who held the active stroke)
disconnects: same empty log, `u2` still a member, no active strokes. -/
def roomAfterW : DrawingState :=
  { roomId := "r1", operations := [], currentIndex := -1,
    users := [("u2", { userId := "u2", socketId := "u2",
                       userColor := "c2", joinedAt := 1 })],
    activeStrokes := [], maxHistorySize := 1000 }

/-- Witness for C9: `u1` has an active stroke in `rmTwoUsers` and disconnects;
the surviving room keeps its log and cursor (and is not a fresh room, since
`u2` is still a member). -/
theorem claim_C9_disconnect_never_commits_witness :
    mapGet (Server.handleDisconnect rmTwoUsers "u1").1.rooms "r1" = some roomAfterW ∧
    ((∃ r1, mapGet rmTwoUsers.rooms "r1" = some r1 ∧
        roomAfterW.operations = r1.operations ∧
        roomAfterW.currentIndex = r1.currentIndex) ∨
     roomAfterW = DrawingState.init "r1") :=
  ⟨by decide,
   (claim_C9_disconnect_never_commits rmTwoUsers "u1").1 "r1" roomAfterW
     (by decide)⟩
